import Mathlib

/-!
Shallow embedding of the two algorithmic cores of `stock_picker.py`
(Indian-Stock-Analyser): the news sentiment classifier
(`classify_sentiment`, lines 140-264) and the value-divergence scorer
(the common-year / base-100 index computation of
`_compute_divergence_scores`, lines 1391-1402, together with the signal
banding of `_render_charts`, lines 1743-1795).

Embedding conventions:
* Python strings are embedded as `List Char` (`Str`); `str.lower` as a
  character-wise `Char.toLower` (its ASCII action, which is all the
  lexicon exercises).
* Python floats are embedded as exact rationals `ℚ`.
* The regex word class `\w` used by the `\b` anchors is embedded as
  ASCII alphanumerics plus underscore.
* Python `None` is embedded as `Option.none`.
-/

namespace StockPicker

abbrev Str := List Char

/-- Character-wise lower-casing, embedding Python `str.lower()`. -/
def lowerStr (s : Str) : Str := s.map Char.toLower

/-- `BULLISH_PHRASES` table, stock_picker.py lines 140-153. -/
def BULLISH_PHRASES : List Str :=
  ["revenue growth", "profit growth", "strong growth", "record profit",
   "record revenue", "record high", "beats estimates", "beats expectations",
   "above expectations", "better than expected", "strong results",
   "strong earnings", "strong demand", "market share gain",
   "order win", "new contract", "strategic partnership",
   "strategic acquisition", "share buyback", "dividend hike",
   "dividend increase", "price target raised", "rating upgrade",
   "upgraded to buy", "positive outlook", "guidance raised",
   "raises guidance", "all-time high", "debt reduction",
   "margin expansion", "margin improvement", "stake increase",
   "fund inflow", "net profit up", "net profit rose",
   "net profit jumped", "top line growth", "bottom line growth"].map String.toList

/-- `BEARISH_PHRASES` table, stock_picker.py lines 154-167. -/
def BEARISH_PHRASES : List Str :=
  ["net loss", "revenue decline", "revenue miss", "profit decline",
   "missed estimates", "missed expectations", "below expectations",
   "worse than expected", "weak results", "weak earnings",
   "weak demand", "market share loss", "order cancellation",
   "rating downgrade", "downgraded to sell", "negative outlook",
   "guidance cut", "lowers guidance", "guidance lowered",
   "debt concern", "debt burden", "high debt", "rising debt",
   "margin pressure", "margin contraction", "stake sale",
   "fund outflow", "net profit fell", "net profit declined",
   "price target cut", "price target lowered", "under investigation",
   "regulatory action", "penalty imposed", "consent order",
   "profit warning", "earnings miss", "layoff announced"].map String.toList

/-- `BULLISH_WORDS` table, stock_picker.py lines 170-176. -/
def BULLISH_WORDS : List Str :=
  ["growth", "profit", "expansion", "acquisition", "partnership",
   "dividend", "upgrade", "milestone", "innovation", "launch",
   "beats", "surpass", "breakthrough", "bullish", "rally",
   "buyback", "outperform", "recovery", "boost", "gains",
   "soars", "surges", "jumps", "climbs", "rises"].map String.toList

/-- `BEARISH_WORDS` table, stock_picker.py lines 177-183. -/
def BEARISH_WORDS : List Str :=
  ["loss", "losses", "debt", "downgrade", "restructuring",
   "layoffs", "fraud", "penalty", "decline", "investigation",
   "lawsuit", "default", "recall", "warning", "bearish",
   "crash", "impairment", "underperform", "plunges", "tumbles",
   "slumps", "plummets", "tanks", "sinks", "slides"].map String.toList

/-- `_NEGATION_PREFIXES` table, stock_picker.py line 192. -/
def NEGATION_PREFIXES : List Str :=
  ["no ", "not ", "without ", "lack of ", "failed to ", "unable to "].map String.toList

/-- First index at which `needle` occurs as a contiguous sublist of `hay`:
Python `hay.find(needle)` with `none` for the not-found result. -/
def firstOccur (needle : Str) : Str → Option Nat
  | [] => if needle.isPrefixOf ([] : Str) then some 0 else none
  | c :: t =>
    if needle.isPrefixOf (c :: t) then some 0
    else (firstOccur needle t).map (fun i => i + 1)

/-- Python substring containment `needle in hay`. -/
def strContains (needle hay : Str) : Bool := (firstOccur needle hay).isSome

/-- Negation test of `classify_sentiment` for a phrase found in the lowered
text `tl`: scan the 15 characters before the first occurrence for a
negation marker (stock_picker.py lines 210-217 and 226-233). -/
def phraseNegated (tl p : Str) : Bool :=
  match firstOccur p tl with
  | none => false
  | some idx =>
    NEGATION_PREFIXES.any fun neg => strContains neg ((tl.take idx).drop (idx - 15))

/-- Mutable loop state of `classify_sentiment`: the two tallies and the two
matched-term lists. -/
structure SentState where
  bullScore : Nat
  bearScore : Nat
  bullHits : List Str
  bearHits : List Str
  deriving DecidableEq

def initState : SentState := ⟨0, 0, [], []⟩

/-- Body of the bullish-phrase loop (stock_picker.py lines 208-223). -/
def bullPhraseStep (tl : Str) (st : SentState) (p : Str) : SentState :=
  if strContains p tl then
    if phraseNegated tl p then
      { st with bearScore := st.bearScore + 2, bearHits := st.bearHits ++ [("not ".toList ++ p)] }
    else
      { st with bullScore := st.bullScore + 2, bullHits := st.bullHits ++ [p] }
  else st

/-- Body of the bearish-phrase loop (stock_picker.py lines 225-239). -/
def bearPhraseStep (tl : Str) (st : SentState) (p : Str) : SentState :=
  if strContains p tl then
    if phraseNegated tl p then
      { st with bullScore := st.bullScore + 2, bullHits := st.bullHits ++ [("no ".toList ++ p)] }
    else
      { st with bearScore := st.bearScore + 2, bearHits := st.bearHits ++ [p] }
  else st

/-- Regex word class `\w` (ASCII fragment): letters, digits, underscore. -/
def isWordChar (c : Char) : Bool := c.isAlphanum || c == '_'

/-- Does the compiled pattern `\b` + word + `\b` (IGNORECASE) match `t` at
position `i`?  The word itself is matched case-insensitively; both ends
must sit on a word boundary. -/
def matchesWordAt (w t : Str) (i : Nat) : Bool :=
  (((t.drop i).take w.length).map Char.toLower == w)
    && (i == 0 || !isWordChar (t.getD (i - 1) ' '))
    && !isWordChar (t.getD (i + w.length) ' ')

/-- Python `pattern.search(text)` for the word-boundary pattern of a single
lexicon word (stock_picker.py lines 186-189). -/
def wordSearch (w t : Str) : Bool :=
  (List.range (t.length + 1)).any fun i => matchesWordAt w t i

/-- Body of the bullish-word loop (stock_picker.py lines 242-246). -/
def bullWordStep (t : Str) (st : SentState) (w : Str) : SentState :=
  if wordSearch w t then
    { st with bullScore := st.bullScore + 1,
              bullHits := if w ∈ st.bullHits then st.bullHits else st.bullHits ++ [w] }
  else st

/-- Body of the bearish-word loop (stock_picker.py lines 248-252). -/
def bearWordStep (t : Str) (st : SentState) (w : Str) : SentState :=
  if wordSearch w t then
    { st with bearScore := st.bearScore + 1,
              bearHits := if w ∈ st.bearHits then st.bearHits else st.bearHits ++ [w] }
  else st

/-- Phases 1 and 2 of `classify_sentiment` (stock_picker.py lines 200-252),
with the single-word tables taken as parameters so that removing one word
from the lexicon is expressible. -/
def runPhasesWith (bullWords bearWords : List Str) (t : Str) : SentState :=
  let tl := lowerStr t
  let s1 := BULLISH_PHRASES.foldl (bullPhraseStep tl) initState
  let s2 := BEARISH_PHRASES.foldl (bearPhraseStep tl) s1
  let s3 := bullWords.foldl (bullWordStep t) s2
  bearWords.foldl (bearWordStep t) s3

/-- The two matching phases with the full lexicon. -/
def runPhases (t : Str) : SentState :=
  runPhasesWith BULLISH_WORDS BEARISH_WORDS t

/-- Decision block of `classify_sentiment` (stock_picker.py lines 254-264). -/
def decideSentiment (st : SentState) : String × List Str :=
  let diff : Int := (st.bullScore : Int) - (st.bearScore : Int)
  if 2 ≤ diff then ("bullish", st.bullHits)
  else if diff ≤ -2 then ("bearish", st.bearHits)
  else if 0 < st.bullScore ∧ st.bearScore = 0 then ("bullish", st.bullHits)
  else if 0 < st.bearScore ∧ st.bullScore = 0 then ("bearish", st.bearHits)
  else ("neutral", if st.bullHits ≠ [] ∨ st.bearHits ≠ [] then st.bullHits ++ st.bearHits else [])

/-- `classify_sentiment` with the single-word tables as parameters. -/
def classifyWith (bullWords bearWords : List Str) (text : Option Str) : String × List Str :=
  match text with
  | none => ("neutral", [])
  | some t =>
    if t = [] then ("neutral", [])
    else decideSentiment (runPhasesWith bullWords bearWords t)

/-- `classify_sentiment` (stock_picker.py lines 195-264).  `none` embeds
Python `None`; the falsy check `if not text` covers both `none` and the
empty string. -/
def classify_sentiment (text : Option Str) : String × List Str :=
  classifyWith BULLISH_WORDS BEARISH_WORDS text

/-- Divergence signal bands; `insufficientData` stands for the code paths
that display no signal when fewer than two common years exist. -/
inductive Signal where
  | undervalued
  | overvalued
  | fairValue
  | insufficientData
  deriving DecidableEq

/-- Result record of the divergence scorer: the common years, the two
base-100 index series, the divergence score and the banded signal. -/
structure DivergenceResult where
  commonYears : List Nat
  revenueIndex : List ℚ
  priceIndex : List ℚ
  scoreVal : ℚ
  signal : Signal
  deriving DecidableEq

/-- Key set of a yearly series (Python `dict.keys()`), the series being
embedded as an association list. -/
def yearList (m : List (Nat × ℚ)) : List Nat := m.map Prod.fst

/-- Insert a year into an ascending duplicate-free list, keeping it
ascending and duplicate-free. -/
def insertYear (y : Nat) : List Nat → List Nat
  | [] => [y]
  | x :: xs =>
    if y < x then y :: x :: xs
    else if y = x then x :: xs
    else x :: insertYear y xs

/-- Python `sorted(set(rev.keys()) & set(price.keys()))`
(stock_picker.py lines 1391 and 1743). -/
def commonYears (rev price : List (Nat × ℚ)) : List Nat :=
  (((yearList rev).filter fun y => (yearList price).contains y).foldr insertYear [])

/-- Dictionary access `m[y]` for a year known to be present (absent years
default to 0; the scorer only reads years of the common-year list). -/
def getVal (m : List (Nat × ℚ)) (y : Nat) : ℚ := (m.lookup y).getD 0

/-- The divergence scorer: common years, base-100 indexing and score from
`_compute_divergence_scores` (stock_picker.py lines 1391-1402) and the
signal banding over the last two common years from `_render_charts`
(lines 1783-1795).  With fewer than two common years the code computes no
index arrays and shows no signal; `_compute_divergence_scores` stores the
sentinel score -9999 there. -/
def divergenceScore (rev price : List (Nat × ℚ)) : DivergenceResult :=
  let cys := commonYears rev price
  if 2 ≤ cys.length then
    let revVals := cys.map (getVal rev)
    let priceVals := cys.map (getVal price)
    let revBase := if revVals.getD 0 0 ≠ 0 then revVals.getD 0 0 else 1
    let priceBase := if priceVals.getD 0 0 ≠ 0 then priceVals.getD 0 0 else 1
    let revIdx := revVals.map fun v => v / revBase * 100
    let priceIdx := priceVals.map fun v => v / priceBase * 100
    let sc := (List.zipWith (fun r p => r - p) revIdx priceIdx).sum
    let revChange :=
      if revVals.getD (revVals.length - 2) 0 ≠ 0 then
        (revVals.getD (revVals.length - 1) 0 - revVals.getD (revVals.length - 2) 0)
          / revVals.getD (revVals.length - 2) 0 * 100
      else 0
    let priceChange :=
      if priceVals.getD (priceVals.length - 2) 0 ≠ 0 then
        (priceVals.getD (priceVals.length - 1) 0 - priceVals.getD (priceVals.length - 2) 0)
          / priceVals.getD (priceVals.length - 2) 0 * 100
      else 0
    let gap := revChange - priceChange
    let sig :=
      if 10 < gap then Signal.undervalued
      else if gap < -10 then Signal.overvalued
      else Signal.fairValue
    ⟨cys, revIdx, priceIdx, sc, sig⟩
  else
    ⟨cys, [], [], -9999, Signal.insufficientData⟩

/-- Decision cascade exactly as the spec words it (§4.1 rules 1-5), for
comparison with the code's decision block `decideSentiment`.  Rule 5
returns the concatenation of bullish-matched then bearish-matched terms
(which is empty when both tallies, hence both lists, are empty). -/
def specDecisionRules (st : SentState) : String × List Str :=
  let diff : Int := (st.bullScore : Int) - (st.bearScore : Int)
  if 2 ≤ diff then ("bullish", st.bullHits)
  else if diff ≤ -2 then ("bearish", st.bearHits)
  else if 0 < st.bullScore ∧ st.bearScore = 0 then ("bullish", st.bullHits)
  else if 0 < st.bearScore ∧ st.bullScore = 0 then ("bearish", st.bearHits)
  else ("neutral", st.bullHits ++ st.bearHits)

/-- Hypothesis encoding of "every occurrence of `w` in `t` sits strictly
inside a longer word": at every position where `w` occurs
(case-insensitively), a word character is directly adjacent on the left
or on the right. -/
def occursInsideOnly (w t : Str) : Bool :=
  (List.range (t.length + 1)).all fun i =>
    !(((t.drop i).take w.length).map Char.toLower == w)
      || ((!(i == 0)) && isWordChar (t.getD (i - 1) ' '))
      || isWordChar (t.getD (i + w.length) ' ')

/-- Invariant of the classifier state: a positive tally comes with a
non-empty matched-term list of the same polarity. -/
def hitsInv (st : SentState) : Prop :=
  (0 < st.bullScore → st.bullHits ≠ []) ∧ (0 < st.bearScore → st.bearHits ≠ [])

/-- Invariant of the phase-1 state: every recorded hit contains a space
(phrase hits are multi-word, possibly with a negation marker prepended). -/
def spaceInv (st : SentState) : Prop :=
  (∀ x ∈ st.bullHits, ' ' ∈ x) ∧ (∀ x ∈ st.bearHits, ' ' ∈ x)

theorem foldl_pres_mem {σ α : Type} (P : σ → Prop) (f : σ → α → σ) :
    ∀ (l : List α), (∀ st a, a ∈ l → P st → P (f st a)) → ∀ st, P st → P (l.foldl f st)
  | [], _, _, hst => hst
  | a :: l, hf, st, hst => by
    simp only [List.foldl_cons]
    exact foldl_pres_mem P f l (fun st' b hb => hf st' b (List.mem_cons_of_mem a hb))
      (f st a) (hf st a (List.mem_cons_self a l) hst)

theorem foldl_erase_of_id {α σ : Type} [BEq α] [LawfulBEq α] (f : σ → α → σ) (w : α)
    (hw : ∀ st, f st w = st) :
    ∀ (l : List α) (st : σ), (l.erase w).foldl f st = l.foldl f st := by
  intro l
  induction l with
  | nil => intro st; rfl
  | cons a l ih =>
    intro st
    rw [List.erase_cons]
    by_cases haw : (a == w) = true
    · rw [if_pos haw, List.foldl_cons]
      have : a = w := eq_of_beq haw
      rw [this, hw st]
    · rw [if_neg haw, List.foldl_cons, List.foldl_cons, ih]

theorem firstOccur_isPrefixOf {p l : Str} {i : Nat} (h : firstOccur p l = some i) :
    p <+: l.drop i := by
  induction l generalizing i with
  | nil =>
    unfold firstOccur at h
    split at h
    · next hp =>
      cases h
      simpa using List.isPrefixOf_iff_prefix.mp hp
    · cases h
  | cons c t ih =>
    unfold firstOccur at h
    split at h
    · next hp =>
      cases h
      simpa using List.isPrefixOf_iff_prefix.mp hp
    · next hp =>
      obtain ⟨j, hj, hji⟩ := Option.map_eq_some'.mp h
      subst hji
      rw [List.drop_succ_cons]
      exact ih hj

theorem firstOccur_le {p l : Str} {i : Nat} (h : firstOccur p l = some i) :
    i ≤ l.length := by
  induction l generalizing i with
  | nil =>
    unfold firstOccur at h
    split at h
    · cases h; exact Nat.le_refl 0
    · cases h
  | cons c t ih =>
    unfold firstOccur at h
    split at h
    · cases h; exact Nat.zero_le _
    · obtain ⟨j, hj, hji⟩ := Option.map_eq_some'.mp h
      subst hji
      simpa using Nat.succ_le_succ (ih hj)

theorem firstOccur_append {p l : Str} {i : Nat} (s : Str) (h : firstOccur p l = some i) :
    firstOccur p (l ++ s) = some i := by
  induction l generalizing i with
  | nil =>
    unfold firstOccur at h
    split at h
    · next hp =>
      cases h
      have hp' : p = [] := by simpa using List.isPrefixOf_iff_prefix.mp hp
      subst hp'
      cases s with
      | nil => rfl
      | cons c t => rfl
    · cases h
  | cons c t ih =>
    unfold firstOccur at h
    split at h
    · next hp =>
      cases h
      show firstOccur p (c :: (t ++ s)) = some 0
      unfold firstOccur
      rw [if_pos]
      exact List.isPrefixOf_iff_prefix.mpr
        ((List.isPrefixOf_iff_prefix.mp hp).trans (List.prefix_append _ _))
    · next hp =>
      obtain ⟨j, hj, hji⟩ := Option.map_eq_some'.mp h
      subst hji
      have hlen : p.length ≤ (c :: t).length := by
        have h1 : p.length ≤ (t.drop j).length := (firstOccur_isPrefixOf hj).length_le
        simp only [List.length_drop, List.length_cons] at h1 ⊢
        omega
      show firstOccur p (c :: (t ++ s)) = some (j + 1)
      unfold firstOccur
      rw [if_neg, ih hj]
      · rfl
      · intro hcon
        apply hp
        have hpre : p <+: (c :: t) ++ s := List.isPrefixOf_iff_prefix.mp hcon
        have : p = ((c :: t) ++ s).take p.length := List.prefix_iff_eq_take.mp hpre
        rw [List.take_append_of_le_length hlen] at this
        exact List.isPrefixOf_iff_prefix.mpr (this ▸ List.take_prefix _ _)

theorem strContains_append {p l : Str} (s : Str) (h : strContains p l = true) :
    strContains p (l ++ s) = true := by
  unfold strContains at h ⊢
  obtain ⟨i, hi⟩ := Option.isSome_iff_exists.mp h
  rw [firstOccur_append s hi]
  rfl

theorem phraseNegated_append {p l : Str} (s : Str) (h : strContains p l = true) :
    phraseNegated (l ++ s) p = phraseNegated l p := by
  unfold strContains at h
  obtain ⟨i, hi⟩ := Option.isSome_iff_exists.mp h
  unfold phraseNegated
  rw [hi, firstOccur_append s hi]
  show (NEGATION_PREFIXES.any fun neg => strContains neg (((l ++ s).take i).drop (i - 15)))
      = (NEGATION_PREFIXES.any fun neg => strContains neg ((l.take i).drop (i - 15)))
  rw [List.take_append_of_le_length (firstOccur_le hi)]

theorem bullPhraseStep_append {p l : Str} (s : Str) (st : SentState)
    (h : strContains p l = true) :
    bullPhraseStep (l ++ s) st p = bullPhraseStep l st p := by
  unfold bullPhraseStep
  rw [strContains_append s h, h, phraseNegated_append s h]

theorem bearPhraseStep_append {p l : Str} (s : Str) (st : SentState)
    (h : strContains p l = true) :
    bearPhraseStep (l ++ s) st p = bearPhraseStep l st p := by
  unfold bearPhraseStep
  rw [strContains_append s h, h, phraseNegated_append s h]

theorem bullPhraseStep_hitsInv (tl p : Str) (st : SentState) (h : hitsInv st) :
    hitsInv (bullPhraseStep tl st p) := by
  unfold bullPhraseStep
  split
  · split
    · exact ⟨fun hb => h.1 hb, fun _ => by simp⟩
    · exact ⟨fun _ => by simp, fun hb => h.2 hb⟩
  · exact h

theorem bearPhraseStep_hitsInv (tl p : Str) (st : SentState) (h : hitsInv st) :
    hitsInv (bearPhraseStep tl st p) := by
  unfold bearPhraseStep
  split
  · split
    · exact ⟨fun _ => by simp, fun hb => h.2 hb⟩
    · exact ⟨fun hb => h.1 hb, fun _ => by simp⟩
  · exact h

theorem bullWordStep_hitsInv (t w : Str) (st : SentState) (h : hitsInv st) :
    hitsInv (bullWordStep t st w) := by
  unfold bullWordStep
  split
  · refine ⟨fun _ => ?_, fun hb => h.2 hb⟩
    split
    · next hmem => exact List.ne_nil_of_mem hmem
    · simp
  · exact h

theorem bearWordStep_hitsInv (t w : Str) (st : SentState) (h : hitsInv st) :
    hitsInv (bearWordStep t st w) := by
  unfold bearWordStep
  split
  · refine ⟨fun hb => h.1 hb, fun _ => ?_⟩
    split
    · next hmem => exact List.ne_nil_of_mem hmem
    · simp
  · exact h

theorem runPhasesWith_hitsInv (bw brw : List Str) (t : Str) :
    hitsInv (runPhasesWith bw brw t) := by
  unfold runPhasesWith
  apply foldl_pres_mem _ _ _ (fun st a _ h => bearWordStep_hitsInv t a st h)
  apply foldl_pres_mem _ _ _ (fun st a _ h => bullWordStep_hitsInv t a st h)
  apply foldl_pres_mem _ _ _ (fun st a _ h => bearPhraseStep_hitsInv _ a st h)
  apply foldl_pres_mem _ _ _ (fun st a _ h => bullPhraseStep_hitsInv _ a st h)
  exact ⟨fun hb => absurd hb (by simp [initState]), fun hb => absurd hb (by simp [initState])⟩

theorem decideSentiment_eq_specRules (st : SentState) :
    decideSentiment st = specDecisionRules st := by
  unfold decideSentiment specDecisionRules
  dsimp only
  split_ifs with h1 h2 h3 h4 h5
  · rfl
  · rfl
  · rfl
  · rfl
  · rfl
  · have hb : st.bullHits = [] ∧ st.bearHits = [] := by
      constructor
      · by_contra hc
        exact h5 (Or.inl hc)
      · by_contra hc
        exact h5 (Or.inr hc)
    rw [hb.1, hb.2]
    rfl

theorem decideSentiment_terms_ne_nil (st : SentState) (hinv : hitsInv st)
    (h : (decideSentiment st).1 = "bullish" ∨ (decideSentiment st).1 = "bearish") :
    (decideSentiment st).2 ≠ [] := by
  unfold decideSentiment at h ⊢
  dsimp only at h ⊢
  split_ifs at h ⊢ with h1 h2 h3 h4 h5 <;>
    first
      | exact hinv.1 (by omega)
      | exact hinv.2 (by omega)
      | exact hinv.1 h3.1
      | exact hinv.2 h4.1
      | (exfalso
         rcases h with h | h
         · exact absurd (by simpa using h) (by decide : ("neutral" : String) ≠ "bullish")
         · exact absurd (by simpa using h) (by decide : ("neutral" : String) ≠ "bearish"))

theorem decideSentiment_not_mem (st : SentState) {w : Str}
    (h1 : w ∉ st.bullHits) (h2 : w ∉ st.bearHits) :
    w ∉ (decideSentiment st).2 := by
  unfold decideSentiment
  dsimp only
  split_ifs <;>
    first
      | exact h1
      | exact h2
      | (intro hc
         rcases List.mem_append.mp hc with hc' | hc'
         · exact h1 hc'
         · exact h2 hc')
      | simp

theorem wordSearch_eq_false_of_inside {w t : Str} (h : occursInsideOnly w t = true) :
    wordSearch w t = false := by
  unfold occursInsideOnly at h
  unfold wordSearch
  rw [List.any_eq_false]
  intro i hi
  have hh := List.all_eq_true.mp h i hi
  intro hmat
  unfold matchesWordAt at hmat
  revert hh hmat
  cases hocc : (((t.drop i).take w.length).map Char.toLower == w) <;>
    cases hz : (i == 0) <;>
      cases hbefore : isWordChar (t.getD (i - 1) ' ') <;>
        cases hafter : isWordChar (t.getD (i + w.length) ' ') <;> simp

theorem lexicon_word_no_space {w : Str}
    (hw : w ∈ BULLISH_WORDS ∨ w ∈ BEARISH_WORDS) : ' ' ∉ w := by
  have hall : ∀ x ∈ BULLISH_WORDS ++ BEARISH_WORDS, ' ' ∉ x := by decide
  rcases hw with h | h
  · exact hall w (List.mem_append_left _ h)
  · exact hall w (List.mem_append_right _ h)

theorem lexicon_phrase_has_space :
    ∀ p ∈ BULLISH_PHRASES ++ BEARISH_PHRASES, ' ' ∈ p := by decide

theorem bullPhraseStep_spaceInv {tl p : Str} {st : SentState} (hp : ' ' ∈ p)
    (h : spaceInv st) : spaceInv (bullPhraseStep tl st p) := by
  unfold bullPhraseStep
  split
  · split
    · refine ⟨h.1, fun x hx => ?_⟩
      rcases List.mem_append.mp hx with hx' | hx'
      · exact h.2 x hx'
      · rw [List.mem_singleton.mp hx']
        exact List.mem_append_right _ hp
    · refine ⟨fun x hx => ?_, h.2⟩
      rcases List.mem_append.mp hx with hx' | hx'
      · exact h.1 x hx'
      · rw [List.mem_singleton.mp hx']
        exact hp
  · exact h

theorem bearPhraseStep_spaceInv {tl p : Str} {st : SentState} (hp : ' ' ∈ p)
    (h : spaceInv st) : spaceInv (bearPhraseStep tl st p) := by
  unfold bearPhraseStep
  split
  · split
    · refine ⟨fun x hx => ?_, h.2⟩
      rcases List.mem_append.mp hx with hx' | hx'
      · exact h.1 x hx'
      · rw [List.mem_singleton.mp hx']
        exact List.mem_append_right _ hp
    · refine ⟨h.1, fun x hx => ?_⟩
      rcases List.mem_append.mp hx with hx' | hx'
      · exact h.2 x hx'
      · rw [List.mem_singleton.mp hx']
        exact hp
  · exact h

/-- After phase 1, every recorded hit contains a space. -/
theorem phase1_spaceInv (tl : Str) :
    spaceInv (BEARISH_PHRASES.foldl (bearPhraseStep tl)
      (BULLISH_PHRASES.foldl (bullPhraseStep tl) initState)) := by
  apply foldl_pres_mem _ _ _
    (fun st a ha h => bearPhraseStep_spaceInv
      (lexicon_phrase_has_space a (List.mem_append_right _ ha)) h)
  apply foldl_pres_mem _ _ _
    (fun st a ha h => bullPhraseStep_spaceInv
      (lexicon_phrase_has_space a (List.mem_append_left _ ha)) h)
  exact ⟨fun x hx => absurd hx (by simp [initState]), fun x hx => absurd hx (by simp [initState])⟩

theorem bullWordStep_not_mem {t : Str} {st : SentState} {w v : Str}
    (hws : wordSearch w t = false)
    (h1 : w ∉ st.bullHits) (h2 : w ∉ st.bearHits) :
    w ∉ (bullWordStep t st v).bullHits ∧ w ∉ (bullWordStep t st v).bearHits := by
  unfold bullWordStep
  by_cases hvw : v = w
  · subst hvw
    rw [hws]
    exact ⟨h1, h2⟩
  · split
    · refine ⟨?_, h2⟩
      split
      · exact h1
      · intro hc
        rcases List.mem_append.mp hc with hc' | hc'
        · exact h1 hc'
        · exact hvw (List.mem_singleton.mp hc').symm
    · exact ⟨h1, h2⟩

theorem bearWordStep_not_mem {t : Str} {st : SentState} {w v : Str}
    (hws : wordSearch w t = false)
    (h1 : w ∉ st.bullHits) (h2 : w ∉ st.bearHits) :
    w ∉ (bearWordStep t st v).bullHits ∧ w ∉ (bearWordStep t st v).bearHits := by
  unfold bearWordStep
  by_cases hvw : v = w
  · subst hvw
    rw [hws]
    exact ⟨h1, h2⟩
  · split
    · refine ⟨h1, ?_⟩
      split
      · exact h2
      · intro hc
        rcases List.mem_append.mp hc with hc' | hc'
        · exact h2 hc'
        · exact hvw (List.mem_singleton.mp hc').symm
    · exact ⟨h1, h2⟩

/-- A lexicon word that the word-boundary search does not find in `t` is
absent from both matched-term lists after the two phases. -/
theorem runPhasesWith_not_mem {w t : Str} (bw brw : List Str)
    (hws : wordSearch w t = false)
    (hsp : ' ' ∉ w) :
    w ∉ (runPhasesWith bw brw t).bullHits ∧ w ∉ (runPhasesWith bw brw t).bearHits := by
  unfold runPhasesWith
  have hs := phase1_spaceInv (lowerStr t)
  exact foldl_pres_mem (fun st => w ∉ st.bullHits ∧ w ∉ st.bearHits) (bearWordStep t) brw
    (fun st a _ h => bearWordStep_not_mem hws h.1 h.2) _
    (foldl_pres_mem (fun st => w ∉ st.bullHits ∧ w ∉ st.bearHits) (bullWordStep t) bw
      (fun st a _ h => bullWordStep_not_mem hws h.1 h.2) _
      ⟨fun hc => hsp (hs.1 w hc), fun hc => hsp (hs.2 w hc)⟩)

/-- Claim C9: empty or null input yields the neutral label with an empty
matched-terms list, with no phrase or word matching performed. -/
theorem claim9_empty_input :
    classify_sentiment none = ("neutral", [])
    ∧ classify_sentiment (some ([] : Str)) = ("neutral", []) :=
  ⟨rfl, rfl⟩

/-- Claim C2, counterexample: on the input "no net loss reported" the
classifier does not return bullish with matched terms ["no net loss"]
(the bearish single word "loss" also matches, so diff = 1 and rule 1
does not fire). -/
theorem claim2_counterexample :
    classify_sentiment (some ("no net loss reported".toList))
      ≠ ("bullish", ["no net loss".toList]) := by decide

/-- Claim C2, amended: `classify("no net loss reported")` returns neutral
with matchedTerms = ["no net loss", "loss"].  The bearish phrase
"net loss" is indeed negated by "no " within the 15-character window and
re-attributed +2 to the bullish tally, but the bearish single word "loss"
also matches (+1 bearish), so bull = 2, bear = 1, diff = 1 and the
neutral rule returns the bullish hits followed by the bearish hits. -/
theorem claim2_amended :
    classify_sentiment (some ("no net loss reported".toList))
      = ("neutral", ["no net loss".toList, "loss".toList]) := by decide

/-- Claim C4: for every input text the classifier's result equals the
spec's five-rule decision cascade applied to the phase tallies, and in
particular equal positive tallies give a neutral result whose terms list
the bullish hits before the bearish hits. -/
theorem claim4_cascade (t : Str) :
    classify_sentiment (some t) = specDecisionRules (runPhases t)
    ∧ ((runPhases t).bullScore = (runPhases t).bearScore →
        0 < (runPhases t).bullScore →
        classify_sentiment (some t)
          = ("neutral", (runPhases t).bullHits ++ (runPhases t).bearHits)) := by
  by_cases ht : t = []
  · subst ht
    refine ⟨by decide, fun heq hpos => absurd hpos (by decide)⟩
  · have hmain : classify_sentiment (some t) = decideSentiment (runPhases t) := by
      unfold classify_sentiment classifyWith
      dsimp only
      rw [if_neg ht]
      rfl
    refine ⟨hmain.trans (decideSentiment_eq_specRules _), fun heq hpos => ?_⟩
    rw [hmain, decideSentiment_eq_specRules]
    unfold specDecisionRules
    dsimp only
    split_ifs with h1 h2 h3 h4
    · exfalso; omega
    · exfalso; omega
    · exact absurd h3.2 (by omega)
    · exact absurd h4.2 (by omega)
    · rfl

/-- Claim C4 witness at "growth loss": one bullish word and one bearish
word give equal positive tallies, and the classifier returns neutral with
the bullish hit preceding the bearish hit. -/
theorem claim4_witness :
    (runPhases ("growth loss".toList)).bullScore = (runPhases ("growth loss".toList)).bearScore
    ∧ 0 < (runPhases ("growth loss".toList)).bullScore
    ∧ classify_sentiment (some ("growth loss".toList))
        = ("neutral", ["growth".toList, "loss".toList]) := by
  refine ⟨by decide, by decide, ?_⟩
  exact ((claim4_cascade ("growth loss".toList)).2 (by decide) (by decide)).trans (by decide)

/-- Claim C8: whenever the classifier returns the label bullish or
bearish, the returned matched-terms list is non-empty. -/
theorem claim8_label_has_terms (text : Option Str)
    (h : (classify_sentiment text).1 = "bullish"
       ∨ (classify_sentiment text).1 = "bearish") :
    (classify_sentiment text).2 ≠ [] := by
  cases text with
  | none =>
    have hn : classify_sentiment none = ("neutral", []) := rfl
    rw [hn] at h
    rcases h with h | h
    · exact absurd (by simpa using h) (by decide : ("neutral" : String) ≠ "bullish")
    · exact absurd (by simpa using h) (by decide : ("neutral" : String) ≠ "bearish")
  | some t =>
    unfold classify_sentiment classifyWith at h ⊢
    dsimp only at h ⊢
    by_cases ht : t = []
    · rw [if_pos ht] at h
      rcases h with h | h
      · exact absurd (by simpa using h) (by decide : ("neutral" : String) ≠ "bullish")
      · exact absurd (by simpa using h) (by decide : ("neutral" : String) ≠ "bearish")
    · rw [if_neg ht] at h ⊢
      exact decideSentiment_terms_ne_nil _ (runPhasesWith_hitsInv _ _ _) h

/-- Claim C8 witness: "growth" classifies as bullish and its matched-terms
list is non-empty. -/
theorem claim8_witness :
    (classify_sentiment (some ("growth".toList))).1 = "bullish"
    ∧ (classify_sentiment (some ("growth".toList))).2 ≠ [] :=
  ⟨by decide, claim8_label_has_terms (some ("growth".toList)) (Or.inl (by decide))⟩

/-- Claim C7: a lexicon single word whose every occurrence in the text
sits strictly inside a longer word (a word character directly adjacent on
the left or the right) is never found by the word-boundary search, so it
contributes nothing to its tally — the classifier behaves exactly as if
the word were erased from the lexicon — and is not in the matched terms. -/
theorem claim7_word_boundary (w t : Str)
    (hmem : w ∈ BULLISH_WORDS ∨ w ∈ BEARISH_WORDS)
    (hin : occursInsideOnly w t = true) :
    wordSearch w t = false
    ∧ classify_sentiment (some t)
        = classifyWith (BULLISH_WORDS.erase w) (BEARISH_WORDS.erase w) (some t)
    ∧ w ∉ (classify_sentiment (some t)).2 := by
  have hws := wordSearch_eq_false_of_inside hin
  have hbid : ∀ st, bullWordStep t st w = st := fun st => by
    simp [bullWordStep, hws]
  have hbrid : ∀ st, bearWordStep t st w = st := fun st => by
    simp [bearWordStep, hws]
  have hnm := runPhasesWith_not_mem BULLISH_WORDS BEARISH_WORDS hws (lexicon_word_no_space hmem)
  refine ⟨hws, ?_, ?_⟩
  · unfold classify_sentiment classifyWith
    dsimp only
    by_cases ht : t = []
    · rw [if_pos ht, if_pos ht]
    · rw [if_neg ht, if_neg ht]
      unfold runPhasesWith
      rw [foldl_erase_of_id (bearWordStep t) w hbrid, foldl_erase_of_id (bullWordStep t) w hbid]
  · unfold classify_sentiment classifyWith
    dsimp only
    by_cases ht : t = []
    · rw [if_pos ht]
      simp
    · rw [if_neg ht]
      exact decideSentiment_not_mem _ hnm.1 hnm.2

/-- Claim C7 witness: "growth" occurs in "overgrowths" only inside a
longer word, the boundary search fails, and "growth" is not matched. -/
theorem claim7_witness :
    ("growth".toList ∈ BULLISH_WORDS ∨ "growth".toList ∈ BEARISH_WORDS)
    ∧ occursInsideOnly ("growth".toList) ("overgrowths".toList) = true
    ∧ wordSearch ("growth".toList) ("overgrowths".toList) = false
    ∧ "growth".toList ∉ (classify_sentiment (some ("overgrowths".toList))).2 := by
  have h := claim7_word_boundary ("growth".toList) ("overgrowths".toList)
    (Or.inl (by decide)) (by decide)
  exact ⟨Or.inl (by decide), by decide, h.1, h.2.2⟩

/-- Claim C10: the phrase-loop body adds exactly +2 to exactly one
polarity when the phrase occurs in the lowered text and nothing otherwise,
no matter how many occurrences there are; and its outcome depends only on
the first occurrence: appending any further text (possibly containing
more, differently negated, occurrences) to a text already containing the
phrase leaves the step's result unchanged.  Both the bullish-phrase and
the bearish-phrase loop bodies are covered. -/
theorem claim10_phrase_once (p t suffix : Str) (st : SentState) :
    ((bullPhraseStep (lowerStr t) st p).bullScore + (bullPhraseStep (lowerStr t) st p).bearScore
        = st.bullScore + st.bearScore + (if strContains p (lowerStr t) = true then 2 else 0))
    ∧ ((bullPhraseStep (lowerStr t) st p).bullScore = st.bullScore
        ∨ (bullPhraseStep (lowerStr t) st p).bearScore = st.bearScore)
    ∧ (strContains p (lowerStr t) = true →
        bullPhraseStep (lowerStr (t ++ suffix)) st p = bullPhraseStep (lowerStr t) st p)
    ∧ ((bearPhraseStep (lowerStr t) st p).bullScore + (bearPhraseStep (lowerStr t) st p).bearScore
        = st.bullScore + st.bearScore + (if strContains p (lowerStr t) = true then 2 else 0))
    ∧ ((bearPhraseStep (lowerStr t) st p).bullScore = st.bullScore
        ∨ (bearPhraseStep (lowerStr t) st p).bearScore = st.bearScore)
    ∧ (strContains p (lowerStr t) = true →
        bearPhraseStep (lowerStr (t ++ suffix)) st p = bearPhraseStep (lowerStr t) st p) := by
  have hmap : lowerStr (t ++ suffix) = lowerStr t ++ lowerStr suffix := List.map_append _ _ _
  refine ⟨?_, ?_, ?_, ?_, ?_, ?_⟩
  · unfold bullPhraseStep
    split_ifs with hc hn <;> simp <;> omega
  · unfold bullPhraseStep
    split_ifs with hc hn <;> simp
  · intro hc
    rw [hmap]
    exact bullPhraseStep_append _ st hc
  · unfold bearPhraseStep
    split_ifs with hc hn <;> simp <;> omega
  · unfold bearPhraseStep
    split_ifs with hc hn <;> simp
  · intro hc
    rw [hmap]
    exact bearPhraseStep_append _ st hc

/-- Claim C10 witness: for the bearish phrase "net loss" found (negated)
in "no net loss", appending text containing another, un-negated,
occurrence of the phrase does not change the loop body's result. -/
theorem claim10_witness :
    strContains ("net loss".toList) (lowerStr ("no net loss".toList)) = true
    ∧ bearPhraseStep (lowerStr ("no net loss".toList ++ ", then a big net loss".toList))
        initState ("net loss".toList)
      = bearPhraseStep (lowerStr ("no net loss".toList)) initState ("net loss".toList) :=
  ⟨by decide,
    (claim10_phrase_once ("net loss".toList) ("no net loss".toList)
      (", then a big net loss".toList) initState).2.2.2.2.2 (by decide)⟩

/-- Claim C1, counterexample: with exactly one common year the code
populates no index arrays (length 0, not 1), so the stated length
invariant fails; and with a zero base-year revenue the first revenue
index entry is 0, not 100, although two common years exist. -/
theorem claim1_counterexample :
    (divergenceScore [(2021, (5 : ℚ))] [(2021, (7 : ℚ))]).commonYears.length = 1
    ∧ (divergenceScore [(2021, (5 : ℚ))] [(2021, (7 : ℚ))]).revenueIndex.length = 0
    ∧ (divergenceScore [(2021, (0 : ℚ)), (2022, (100 : ℚ))]
        [(2021, (10 : ℚ)), (2022, (10 : ℚ))]).revenueIndex.headD 0 = 0 := by
  refine ⟨?_, ?_, ?_⟩ <;>
    norm_num [divergenceScore, commonYears, yearList, insertYear, getVal, List.lookup,
      show ((2022 : Nat) == 2021) = false from rfl]

/-- Claim C1, amended: with at least two common years both index arrays
have the same length as the common-year list and their first entries
equal 100 provided the base-year value is nonzero (a zero base-year value
is divided by 1 instead, making the first index entry 0); with fewer than
two common years the scorer computes no index arrays, so both are empty. -/
theorem claim1_amended (rev price : List (Nat × ℚ)) :
    (2 ≤ (commonYears rev price).length →
      (divergenceScore rev price).revenueIndex.length
          = (divergenceScore rev price).commonYears.length
      ∧ (divergenceScore rev price).priceIndex.length
          = (divergenceScore rev price).commonYears.length
      ∧ (getVal rev ((commonYears rev price).headD 0) ≠ 0 →
          (divergenceScore rev price).revenueIndex.headD 0 = 100)
      ∧ (getVal price ((commonYears rev price).headD 0) ≠ 0 →
          (divergenceScore rev price).priceIndex.headD 0 = 100))
    ∧ ((commonYears rev price).length < 2 →
      (divergenceScore rev price).revenueIndex = []
      ∧ (divergenceScore rev price).priceIndex = []) := by
  constructor
  · intro h
    obtain ⟨y, ys, hc⟩ : ∃ y ys, commonYears rev price = y :: ys := by
      rcases hcys : commonYears rev price with _ | ⟨y, ys⟩
      · rw [hcys] at h
        simp at h
      · exact ⟨y, ys, rfl⟩
    unfold divergenceScore
    dsimp only
    rw [if_pos h, hc]
    refine ⟨by simp, by simp, ?_, ?_⟩
    · intro hr
      simp only [List.headD_cons] at hr
      simp only [List.map_cons, List.getD_cons_zero, List.headD_cons]
      rw [if_pos hr, div_self hr, one_mul]
    · intro hr
      simp only [List.headD_cons] at hr
      simp only [List.map_cons, List.getD_cons_zero, List.headD_cons]
      rw [if_pos hr, div_self hr, one_mul]
  · intro h
    unfold divergenceScore
    dsimp only
    rw [if_neg (by omega)]
    exact ⟨rfl, rfl⟩

/-- Claim C1 witness: at score({2021:100, 2022:150}, {2021:50, 2022:55})
the index arrays match the common-year count and start at 100. -/
theorem claim1_witness :
    2 ≤ (commonYears [(2021, (100 : ℚ)), (2022, (150 : ℚ))]
          [(2021, (50 : ℚ)), (2022, (55 : ℚ))]).length
    ∧ (divergenceScore [(2021, (100 : ℚ)), (2022, (150 : ℚ))]
          [(2021, (50 : ℚ)), (2022, (55 : ℚ))]).revenueIndex.length
        = (divergenceScore [(2021, (100 : ℚ)), (2022, (150 : ℚ))]
          [(2021, (50 : ℚ)), (2022, (55 : ℚ))]).commonYears.length
    ∧ (divergenceScore [(2021, (100 : ℚ)), (2022, (150 : ℚ))]
          [(2021, (50 : ℚ)), (2022, (55 : ℚ))]).revenueIndex.headD 0 = 100 := by
  have hlen : 2 ≤ (commonYears [(2021, (100 : ℚ)), (2022, (150 : ℚ))]
      [(2021, (50 : ℚ)), (2022, (55 : ℚ))]).length := by decide
  have hbase : getVal [(2021, (100 : ℚ)), (2022, (150 : ℚ))]
      ((commonYears [(2021, (100 : ℚ)), (2022, (150 : ℚ))]
        [(2021, (50 : ℚ)), (2022, (55 : ℚ))]).headD 0) ≠ 0 := by
    norm_num [getVal, commonYears, yearList, insertYear, List.lookup]
  have h := (claim1_amended [(2021, (100 : ℚ)), (2022, (150 : ℚ))]
    [(2021, (50 : ℚ)), (2022, (55 : ℚ))]).1 hlen
  exact ⟨hlen, h.1, h.2.2.1 hbase⟩

/-- Claim C3, counterexample: for score({2021:0, 2022:100}, {2021:10, 2022:10})
the revenue index is not [100, 10000]: the zero base-year revenue is
replaced by 1 only in the divisor, so the first entry is 0/1*100 = 0. -/
theorem claim3_counterexample :
    (divergenceScore [(2021, (0 : ℚ)), (2022, (100 : ℚ))]
        [(2021, (10 : ℚ)), (2022, (10 : ℚ))]).revenueIndex ≠ [100, 10000] := by
  norm_num [divergenceScore, commonYears, yearList, insertYear, getVal, List.lookup,
    show ((2022 : Nat) == 2021) = false from rfl]

/-- Claim C3, amended: at score({2021:0, 2022:100}, {2021:10, 2022:10})
the base-year revenue 0 is treated as 1 in the divisor (avoiding division
by zero) and the resulting revenueIndex is [0, 10000]. -/
theorem claim3_amended :
    (divergenceScore [(2021, (0 : ℚ)), (2022, (100 : ℚ))]
        [(2021, (10 : ℚ)), (2022, (10 : ℚ))]).revenueIndex = [0, 10000] := by
  norm_num [divergenceScore, commonYears, yearList, insertYear, getVal, List.lookup,
    show ((2022 : Nat) == 2021) = false from rfl]

/-- Claim C5: with at least two common years the banded signal is
computed from the last two common years only: the revenue change percent
(0 when the previous value is 0), the price change percent likewise, and
their gap banded at +10 (undervalued) and -10 (overvalued), defaulting
to fair value. -/
theorem claim5_signal_band (rev price : List (Nat × ℚ))
    (h : 2 ≤ (commonYears rev price).length) :
    (divergenceScore rev price).signal =
      (let rv := (commonYears rev price).map (getVal rev)
       let pv := (commonYears rev price).map (getVal price)
       let revChange :=
         if rv.getD (rv.length - 2) 0 ≠ 0 then
           (rv.getD (rv.length - 1) 0 - rv.getD (rv.length - 2) 0)
             / rv.getD (rv.length - 2) 0 * 100
         else 0
       let priceChange :=
         if pv.getD (pv.length - 2) 0 ≠ 0 then
           (pv.getD (pv.length - 1) 0 - pv.getD (pv.length - 2) 0)
             / pv.getD (pv.length - 2) 0 * 100
         else 0
       if 10 < revChange - priceChange then Signal.undervalued
       else if revChange - priceChange < -10 then Signal.overvalued
       else Signal.fairValue) := by
  unfold divergenceScore
  dsimp only
  rw [if_pos h]

/-- Claim C5 witness: at score({2021:100, 2022:150}, {2021:50, 2022:55})
the gap is 50 - 10 = 40 > 10, so the signal is undervalued. -/
theorem claim5_witness :
    2 ≤ (commonYears [(2021, (100 : ℚ)), (2022, (150 : ℚ))]
          [(2021, (50 : ℚ)), (2022, (55 : ℚ))]).length
    ∧ (divergenceScore [(2021, (100 : ℚ)), (2022, (150 : ℚ))]
          [(2021, (50 : ℚ)), (2022, (55 : ℚ))]).signal = Signal.undervalued := by
  refine ⟨by decide, ?_⟩
  rw [claim5_signal_band _ _ (by decide)]
  norm_num [commonYears, yearList, insertYear, getVal, List.lookup,
    show ((2022 : Nat) == 2021) = false from rfl]

/-- Claim C6: with at least two common years the divergence score is the
sum over the common years (held in ascending order) of the pointwise
difference revenueIndex - priceIndex, each index being the raw value
divided by the first common year's value (0 treated as 1) times 100; in
particular score({2021:100, 2022:150}, {2021:50, 2022:55}) = 40 with
signal undervalued. -/
theorem claim6_score_sum (rev price : List (Nat × ℚ))
    (h : 2 ≤ (commonYears rev price).length) :
    ((divergenceScore rev price).scoreVal =
      ((commonYears rev price).map fun y =>
        getVal rev y
            / (if getVal rev ((commonYears rev price).headD 0) ≠ 0
               then getVal rev ((commonYears rev price).headD 0) else 1) * 100
          - getVal price y
            / (if getVal price ((commonYears rev price).headD 0) ≠ 0
               then getVal price ((commonYears rev price).headD 0) else 1) * 100).sum)
    ∧ (divergenceScore [(2021, (100 : ℚ)), (2022, (150 : ℚ))]
        [(2021, (50 : ℚ)), (2022, (55 : ℚ))]).scoreVal = 40
    ∧ (divergenceScore [(2021, (100 : ℚ)), (2022, (150 : ℚ))]
        [(2021, (50 : ℚ)), (2022, (55 : ℚ))]).signal = Signal.undervalued := by
  refine ⟨?_, ?_, ?_⟩
  · obtain ⟨y, ys, hc⟩ : ∃ y ys, commonYears rev price = y :: ys := by
      rcases hcys : commonYears rev price with _ | ⟨y, ys⟩
      · rw [hcys] at h
        simp at h
      · exact ⟨y, ys, rfl⟩
    unfold divergenceScore
    dsimp only
    rw [if_pos h, hc]
    dsimp only
    rw [List.map_map, List.map_map, List.zipWith_map, List.zipWith_same]
    simp only [Function.comp, List.map_cons, List.getD_cons_zero, List.headD_cons]
  · norm_num [divergenceScore, commonYears, yearList, insertYear, getVal, List.lookup,
      show ((2022 : Nat) == 2021) = false from rfl]
  · norm_num [divergenceScore, commonYears, yearList, insertYear, getVal, List.lookup,
      show ((2022 : Nat) == 2021) = false from rfl]

/-- Claim C6 witness: the hypothesis holds at the spec's example and the
score evaluates to 40 there. -/
theorem claim6_witness :
    2 ≤ (commonYears [(2021, (100 : ℚ)), (2022, (150 : ℚ))]
          [(2021, (50 : ℚ)), (2022, (55 : ℚ))]).length
    ∧ (divergenceScore [(2021, (100 : ℚ)), (2022, (150 : ℚ))]
          [(2021, (50 : ℚ)), (2022, (55 : ℚ))]).scoreVal = 40 :=
  ⟨by decide, (claim6_score_sum [(2021, (100 : ℚ)), (2022, (150 : ℚ))]
      [(2021, (50 : ℚ)), (2022, (55 : ℚ))] (by decide)).2.1⟩

end StockPicker
